import Mathlib

/-!
Verification of the go-ecommerce products service (validation pipeline,
filter/pagination/sort engine, repositories with optimistic concurrency,
error mapping).  Shallow embedding: Go functions become Lean functions,
the database table becomes an explicit list of rows, Go `map[string]string`
becomes an association list with overwrite-on-set semantics, and fallible
operations return `Except` / result variants.
-/

namespace GoEcom

/-! ## Go map[string]string -/

/-- Lookup in a Go string map (modelled as an association list). -/
def mapGet : List (String × String) → String → Option String
  | [], _ => none
  | (k', v) :: rest, k => if k = k' then some v else mapGet rest k

/-- `m[k] = v` on a Go string map: overwrite the binding if the key is
present, otherwise add it. -/
def mapSet : List (String × String) → String → String → List (String × String)
  | [], k, v => [(k, v)]
  | (k', v') :: rest, k, v =>
    if k = k' then (k', v) :: rest else (k', v') :: mapSet rest k v

/-! ## strconv.Atoi -/

/-- Value of a digit run (helper for `atoi`). -/
def digitsToNat (ds : List Char) : Nat :=
  ds.foldl (fun acc c => acc * 10 + (c.toNat - ('0').toNat)) 0

/-- Digit-run part of `strconv.Atoi`: nonempty all-digit strings parse. -/
def atoiCore (ds : List Char) : Option Nat :=
  if ds ≠ [] ∧ ds.all (fun c => c.isDigit) then some (digitsToNat ds) else none

/-- `strconv.Atoi`: optional sign followed by a nonempty digit run
(the int64 range bound is not modelled; no claim depends on it). -/
def atoi (s : String) : Option Int :=
  match s.data with
  | [] => none
  | '+' :: rest => (atoiCore rest).map (fun n => (n : Int))
  | '-' :: rest => (atoiCore rest).map (fun n => -(n : Int))
  | ds => (atoiCore ds).map (fun n => (n : Int))

/-! ## data.Metadata and calculateMetadata
(src/products/internal/data/categories_test.go, filters section, lines 528-557) -/

/-- `data.Metadata` (Go ints modelled as unbounded `Int`). -/
structure Metadata where
  currentPage : Int
  pageSize : Int
  firstPage : Int
  lastPage : Int
  totalRecords : Int
deriving DecidableEq, Repr

/-- The Go zero value `Metadata\x7b\x7d`. -/
def Metadata.empty : Metadata := ⟨0, 0, 0, 0, 0⟩

/-- `data.calculateMetadata`.  Go integer division of nonnegative ints is
truncated division, hence `Int.tdiv`. -/
def calculateMetadata (totalRecords page pageSize : Int) : Metadata :=
  if totalRecords = 0 then Metadata.empty
  else
    { currentPage := page
      pageSize := pageSize
      firstPage := 1
      lastPage := (totalRecords + pageSize - 1).tdiv pageSize
      totalRecords := totalRecords }

/-! ## data.Filters and sortColumns
(src/products/internal/data/categories_test.go, filters section, lines 488-526) -/

/-- `data.Filters`.  `DateFrom`/`DateTo` (Go `*time.Time`) are modelled by
the raw accepted timestamp string; the claims never inspect the parsed
time value. -/
structure Filters where
  IDs : List Int
  Name : String
  DateFrom : Option String
  DateTo : Option String
  Sorts : List String
  Page : Int
  PageSize : Int
deriving DecidableEq, Repr

/-- The `sortFieldMapping` Go map literal inside `Filters.sortColumns`,
as a function; a missing key yields the Go zero value `""`. -/
def sortFieldMapping (key : String) : String :=
  if key = "created_at" then "created_at ASC"
  else if key = "-created_at" then "created_at DESC"
  else if key = "id" then "id ASC"
  else if key = "-id" then "id DESC"
  else if key = "name" then "name ASC"
  else if key = "-name" then "name DESC"
  else ""

/-- `Filters.sortColumns`: map each sort key through `sortFieldMapping` in
request order, tracking whether an `id`/`-id` key occurred; append the
`id` clause when none did; join with `", "`. -/
def Filters.sortColumns (f : Filters) : String :=
  let hasId := f.Sorts.any (fun key => key == "id" || key == "-id")
  let sortCols := f.Sorts.map sortFieldMapping
  let sortCols := if hasId then sortCols else sortCols ++ [sortFieldMapping "id"]
  String.intercalate ", " sortCols

/-- `Filters.offset`. -/
def Filters.offset (f : Filters) : Int := (f.Page - 1) * f.PageSize

/-- Spec-side sort table, written from the words of the spec: id→"id ASC",
-id→"id DESC", name→"name ASC", -name→"name DESC", created_at→"created_at
ASC", -created_at→"created_at DESC" (for comparison with the
implementation). -/
def specSortTable (key : String) : String :=
  if key = "id" then "id ASC"
  else if key = "-id" then "id DESC"
  else if key = "name" then "name ASC"
  else if key = "-name" then "name DESC"
  else if key = "created_at" then "created_at ASC"
  else if key = "-created_at" then "created_at DESC"
  else ""

/-- Spec-side ORDER BY clause, written from the words of the spec: the
keys map through the fixed table in request order joined with `", "`;
when neither `id` nor `-id` occurs among the keys, `"id ASC"` is appended
as the final clause, otherwise nothing is appended. -/
def specSortClause (keys : List String) : String :=
  if "id" ∈ keys ∨ "-id" ∈ keys then
    String.intercalate ", " (keys.map specSortTable)
  else
    String.intercalate ", " (keys.map specSortTable ++ ["id ASC"])

/-! ## go-playground/validator: declarative field rules

A failing rule is reported as a `FieldError` (struct field name, tag,
parameter), mirroring `validator.FieldError`.  For each field the library
reports the first failing tag only, and collects the resulting errors
across all fields of the struct. -/

/-- One failing declarative rule: struct field name, rule tag, parameter. -/
structure FieldError where
  field : String
  tag : String
  param : String
deriving DecidableEq, Repr

/-- The sort-key safelist of the `oneof` tag on `Filters.Sorts`. -/
def permittedSortKeys : List String :=
  ["id", "created_at", "name", "-id", "-created_at", "-name"]

/-- Rules of `Filters.Name`: `omitempty,max=100`. -/
def validateFiltersName (name : String) : Option FieldError :=
  if name = "" then none
  else if 100 < name.length then some ⟨"Name", "max", "100"⟩
  else none

/-- Rules of `Filters.Sorts`:
`omitempty,max=4,dive,oneof=id created_at name -id -created_at -name`.
`max` bounds the slice length; when it passes, `dive` checks each entry. -/
def validateFiltersSorts (sorts : List String) : List FieldError :=
  if sorts = [] then []
  else if 4 < sorts.length then [⟨"Sorts", "max", "4"⟩]
  else
    sorts.enum.filterMap fun p =>
      if p.2 ∈ permittedSortKeys then none
      else some ⟨"Sorts[" ++ toString p.1 ++ "]", "oneof",
        "id created_at name -id -created_at -name"⟩

/-- Rules of `Filters.Page`: `gte=1,lte=10_0000_000`. -/
def validateFiltersPage (page : Int) : Option FieldError :=
  if page < 1 then some ⟨"Page", "gte", "1"⟩
  else if 100000000 < page then some ⟨"Page", "lte", "10_0000_000"⟩
  else none

/-- Rules of `Filters.PageSize`: `gte=1,lte=100`. -/
def validateFiltersPageSize (ps : Int) : Option FieldError :=
  if ps < 1 then some ⟨"PageSize", "gte", "1"⟩
  else if 100 < ps then some ⟨"PageSize", "lte", "100"⟩
  else none

/-- `h.validator.Struct` applied to `data.Filters` (fields with no
`validate` tag contribute nothing). -/
def validateFilters (f : Filters) : List FieldError :=
  (validateFiltersName f.Name).toList ++ validateFiltersSorts f.Sorts
    ++ (validateFiltersPage f.Page).toList
    ++ (validateFiltersPageSize f.PageSize).toList

/-! ## handlers.productDTO and its validation
(src/products/internal/handlers/products.go) -/

/-- `handlers.productDTO` (Go `float64` price modelled as `ℚ`; no claim
depends on floating-point rounding). -/
structure ProductDTO where
  Name : String
  CategoryID : Int
  Description : String
  Price : ℚ
  Quantity : Int
deriving DecidableEq

/-- Rules of `productDTO.Name` and `categoryDTO.Name`:
`required,min=3,max=100` (required fails on the zero value). -/
def validateNameField (s : String) : Option FieldError :=
  if s = "" then some ⟨"Name", "required", ""⟩
  else if s.length < 3 then some ⟨"Name", "min", "3"⟩
  else if 100 < s.length then some ⟨"Name", "max", "100"⟩
  else none

/-- Rules of `productDTO.CategoryID`: `required`. -/
def validateCategoryIDField (i : Int) : Option FieldError :=
  if i = 0 then some ⟨"CategoryID", "required", ""⟩ else none

/-- Rules of `productDTO.Price`: `omitempty,gte=0`. -/
def validatePriceField (p : ℚ) : Option FieldError :=
  if p = 0 then none
  else if p < 0 then some ⟨"Price", "gte", "0"⟩
  else none

/-- Rules of `productDTO.Quantity`: `omitempty,gte=0`. -/
def validateQuantityField (q : Int) : Option FieldError :=
  if q = 0 then none
  else if q < 0 then some ⟨"Quantity", "gte", "0"⟩
  else none

/-- `h.validator.Struct` applied to `productDTO`: the errors of every
field, in struct order (`Description` is `omitempty` only and never
fails). -/
def validateProductDTO (p : ProductDTO) : List FieldError :=
  (validateNameField p.Name).toList
    ++ (validateCategoryIDField p.CategoryID).toList
    ++ (validatePriceField p.Price).toList
    ++ (validateQuantityField p.Quantity).toList

/-! ## handlers error formatting (src/unnamed/part_002) -/

/-- `handlers.fieldJSONMap`. -/
def fieldJSONMap : List (String × String) :=
  [("Name", "name"), ("CategoryID", "category_id"),
   ("Description", "description"), ("Price", "price"),
   ("Quantity", "quantity")]

/-- `handlers.getJsonName`. -/
def getJsonName (key : String) (fieldMap : List (String × String)) : String :=
  match mapGet fieldMap key with
  | some val => val
  | none => key

/-- `handlers.getFieldErrorMessage` (the Go `switch` on the tag; in the
default case `fe.Error()` is abbreviated to the field and tag — no claim
reaches the default case). -/
def getFieldErrorMessage (fe : FieldError) : String :=
  if fe.tag = "required" then "is required"
  else if fe.tag = "email" then "is not a valid email address"
  else if fe.tag = "min" then "must be at least " ++ fe.param ++ " characters long"
  else if fe.tag = "max" then "must be at most " ++ fe.param ++ " characters long"
  else if fe.tag = "len" then "must be exactly " ++ fe.param ++ " characters long"
  else if fe.tag = "eq" then "must be equal to " ++ fe.param
  else if fe.tag = "ne" then "must not be equal to " ++ fe.param
  else if fe.tag = "lt" then "must be less than " ++ fe.param
  else if fe.tag = "lte" then "must be less than or equal to " ++ fe.param
  else if fe.tag = "gt" then "must be greater than " ++ fe.param
  else if fe.tag = "gte" then "must be greater than or equal to " ++ fe.param
  else if fe.tag = "oneof" then "must be one of [" ++ fe.param ++ "]"
  else if fe.tag = "url" then "must be a valid URL"
  else if fe.tag = "uuid" then "must be a valid UUID"
  else if fe.tag = "alphanum" then "must contain only alphanumeric characters"
  else if fe.tag = "numeric" then "must be a valid number"
  else if fe.tag = "boolean" then "must be a boolean value"
  else if fe.tag = "datetime" then "must be a valid datetime format (" ++ fe.param ++ ")"
  else "failed validation: " ++ fe.field ++ " " ++ fe.tag

/-- `handlers.getValidationMessages`: fold the validation errors into a
Go map keyed by the external (wire) field name. -/
def getValidationMessages (ve : List FieldError) : List (String × String) :=
  ve.foldl
    (fun m fe => mapSet m (getJsonName fe.field fieldJSONMap) (getFieldErrorMessage fe))
    []

/-! ## handlers query-string helpers
(src/products/internal/handlers/helpers.go) -/

/-- `strings.Split(s, ",")`, written by structural recursion on the
characters: split at every comma, keeping empty tokens. -/
def splitCommaAux : List Char → List Char → List String
  | [], acc => [String.mk acc.reverse]
  | c :: rest, acc =>
    if c = ',' then String.mk acc.reverse :: splitCommaAux rest []
    else splitCommaAux rest (c :: acc)

/-- `strings.Split` on the comma separator. -/
def splitComma (s : String) : List String := splitCommaAux s.data []

/-- `Handlers.readCSV`: an absent or empty key yields the default,
otherwise the value splits on commas. -/
def readCSV (qs : String → String) (key : String) (defaultValue : List String) :
    List String :=
  let csv := qs key
  if csv = "" then defaultValue
  else splitComma csv

/-- `Handlers.readInt` (src/products/internal/handlers/helpers.go lines
147-171): an absent or empty key yields the default; a value
`strconv.Atoi` rejects records the message `"must be an integer value"`
for the key and yields the default. -/
def readInt (qs : String → String) (key : String) (defaultValue : Int)
    (valErrs : List (String × String)) : Int × List (String × String) :=
  let s := qs key
  if s = "" then (defaultValue, valErrs)
  else
    match atoi s with
    | none => (defaultValue, mapSet valErrs key "must be an integer value")
    | some i => (i, valErrs)

/-- Shape check of the canonical RFC3339 layout `YYYY-MM-DDTHH:MM:SSZ`
(supports the spec model of `readTime`; the claims only exercise absent
parameters, so finer RFC3339 variants are not modelled). -/
def isRFC3339 (s : String) : Bool :=
  match s.data with
  | [y1, y2, y3, y4, '-', m1, m2, '-', d1, d2, 'T',
     h1, h2, ':', n1, n2, ':', s1, s2, 'Z'] =>
    [y1, y2, y3, y4, m1, m2, d1, d2, h1, h2, n1, n2, s1, s2].all
      (fun c => c.isDigit)
  | _ => false

/-- Modelled from the spec: the helper `readTime` is called by
`ListCategoryHandler` (src/products/internal/handlers/products.go lines
202-203) but its definition is not among the provided sources.  Spec 4.3:
`date_from`, `date_to` are RFC3339 timestamps; malformed values produce
`invalid datetime: <raw>`; an absent or empty parameter yields the
provided default.  The accepted time is represented by its raw string. -/
def readTime (qs : String → String) (key : String) (defaultValue : Option String)
    (valErrs : List (String × String)) : Option String × List (String × String) :=
  let s := qs key
  if s = "" then (defaultValue, valErrs)
  else if isRFC3339 s then (some s, valErrs)
  else (defaultValue, mapSet valErrs key ("invalid datetime: " ++ s))

/-- Modelled from the spec: the helper `readInt64Slice` is called by
`ListCategoryHandler` (src/products/internal/handlers/products.go line
204) but its definition is not among the provided sources.  Spec 4.3:
`id` is a comma-separated list of integers; each malformed entry produces
the per-field error `invalid id: "<token>"`; an absent or empty parameter
yields the provided default. -/
def readInt64Slice (qs : String → String) (key : String)
    (defaultValue : List Int) (valErrs : List (String × String)) :
    List Int × List (String × String) :=
  let s := qs key
  if s = "" then (defaultValue, valErrs)
  else
    (splitComma s).foldl
      (fun acc tok =>
        match atoi tok with
        | some i => (acc.1 ++ [i], acc.2)
        | none => (acc.1, mapSet acc.2 key ("invalid id: \"" ++ tok ++ "\"")))
      ([], valErrs)

/-! ## handlers.ListCategoryHandler
(src/products/internal/handlers/products.go lines 196-236) -/

/-- Outcome of `ListCategoryHandler` before the repository call:
`badRequest` is the 400 parse-error response keyed per field,
`unprocessable` the 422 `failedValidationResponse`, and `ok` the filters
passed on to `CategoryModel.GetAll`. -/
inductive ListOutcome where
  | badRequest (errs : List (String × String))
  | unprocessable (errs : List FieldError)
  | ok (filters : Filters)
deriving DecidableEq, Repr

/-- The query-parameter parsing block of `ListCategoryHandler`
(lines 198-208), threading the `valErrs` map in source order. -/
def listCategoryParse (qs : String → String) : Filters × List (String × String) :=
  let valErrs : List (String × String) := []
  let r1 := readTime qs "date_from" none valErrs
  let r2 := readTime qs "date_to" none r1.2
  let r3 := readInt64Slice qs "id" [] r2.2
  let name := qs "name"
  let sorts := readCSV qs "sort" []
  let r4 := readInt qs "page" 1 r3.2
  let r5 := readInt qs "page_size" 20 r4.2
  (⟨r3.1, name, r1.1, r2.1, sorts, r4.1, r5.1⟩, r5.2)

/-- `ListCategoryHandler` up to the repository call: a nonempty parse
error map yields the 400 response; a failing struct validation yields
the 422 response; otherwise the request proceeds with the parsed
filters. -/
def ListCategoryHandler (qs : String → String) : ListOutcome :=
  let parsed := listCategoryParse qs
  if parsed.2 ≠ [] then ListOutcome.badRequest parsed.2
  else if validateFilters parsed.1 = [] then ListOutcome.ok parsed.1
  else ListOutcome.unprocessable (validateFilters parsed.1)

/-! ## Handlers.writeJSON
(src/products/internal/handlers/helpers.go lines 92-114) -/

/-- The observable effect of a handler on the `http.ResponseWriter`:
status written, response headers, body bytes. -/
structure HttpResponse where
  status : Option Int
  headers : List (String × String)
  body : String
deriving DecidableEq, Repr

/-- `Handlers.writeJSON`.  The JSON serialization of the envelope is an
external effect and enters as `marshalled` (`json.MarshalIndent` result);
the in-memory response writer of the embedding cannot fail, so
serialization is the only error source.  Returns the response and whether
`logError` ran. -/
def writeJSON (marshalled : Option String) (status : Int)
    (headers : List (String × String)) : HttpResponse × Bool :=
  match marshalled with
  | some js =>
    let js := js ++ "\n"
    let hdrs := mapSet headers "Content-Type" "application/json"
    (⟨some status, hdrs, js⟩, false)
  | none => (⟨some 500, [], ""⟩, true)

/-! ## data layer: rows, optimistic-concurrency Update
(src/products/internal/data/categories.go, products.go) -/

/-- Result of a repository call (`nil` / `ErrEditConflict`). -/
inductive DbResult where
  | ok
  | editConflict
deriving DecidableEq, Repr

/-- `data.Category` (`CreatedAt` modelled as an abstract instant). -/
structure Category where
  ID : Int
  Name : String
  Description : String
  Version : Int
  CreatedAt : Int
deriving DecidableEq, Repr

/-- One stored row of the `categories` table. -/
structure CatRow where
  id : Int
  name : String
  description : String
  version : Int
  createdAt : Int
deriving DecidableEq, Repr

/-- The `WHERE id = $3 AND version = $4` predicate of the category
UPDATE. -/
def catRowMatches (c : Category) (r : CatRow) : Bool :=
  r.id == c.ID && r.version == c.Version

/-- Effect of `SET name = $1, description = $2, version = version + 1` on
one row, guarded by the WHERE predicate. -/
def catApplyUpdate (c : Category) (r : CatRow) : CatRow :=
  if catRowMatches c r then
    { r with name := c.Name, description := c.Description, version := r.version + 1 }
  else r

/-- Result of `CategoryModel.Update`: the table afterwards, the record of
the caller afterwards, and the returned error value. -/
structure CatUpdateResult where
  table : List CatRow
  record : Category
  res : DbResult
deriving DecidableEq, Repr

/-- `CategoryModel.Update` (src/products/internal/data/categories.go
lines 138-161): the UPDATE statement touches exactly the rows matching
`(id, version)` and `RETURNING version` feeds `Scan(&category.Version)`;
an empty result set is `sql.ErrNoRows`, returned as `ErrEditConflict`,
leaving the record of the caller untouched. -/
def CategoryModel.Update (tbl : List CatRow) (c : Category) : CatUpdateResult :=
  let newTable := tbl.map (catApplyUpdate c)
  let returning := (tbl.filter (catRowMatches c)).map (fun r => r.version + 1)
  match returning with
  | [] => ⟨newTable, c, DbResult.editConflict⟩
  | v :: _ => ⟨newTable, { c with Version := v }, DbResult.ok⟩

/-- `data.Product`. -/
structure Product where
  ID : Int
  Name : String
  CategoryID : Int
  Description : String
  Price : ℚ
  Quantity : Int
  Version : Int
  CreatedAt : Int
deriving DecidableEq, Repr

/-- One stored row of the `products` table. -/
structure ProdRow where
  id : Int
  name : String
  categoryId : Int
  description : String
  price : ℚ
  quantity : Int
  version : Int
  createdAt : Int
deriving DecidableEq, Repr

/-- The `WHERE id = ? AND version = ?` predicate of the product
UPDATE. -/
def prodRowMatches (p : Product) (r : ProdRow) : Bool :=
  r.id == p.ID && r.version == p.Version

/-- Effect of the product UPDATE SET clauses on one row (the code sets
`version` to `product.Version + 1` explicitly). -/
def prodApplyUpdate (p : Product) (r : ProdRow) : ProdRow :=
  if prodRowMatches p r then
    { r with
      name := p.Name
      categoryId := p.CategoryID
      description := p.Description
      price := p.Price
      quantity := p.Quantity
      version := p.Version + 1 }
  else r

/-- Result of `ProductModel.Update`. -/
structure ProdUpdateResult where
  table : List ProdRow
  record : Product
  res : DbResult
deriving DecidableEq, Repr

/-- `ProductModel.Update` (src/products/internal/data/products.go lines
193-217), built with squirrel but identical in shape to the category
UPDATE: compare-and-swap on `(id, version)`, `RETURNING version` scanned
into the record, `sql.ErrNoRows` mapped to `ErrEditConflict`. -/
def ProductModel.Update (tbl : List ProdRow) (p : Product) : ProdUpdateResult :=
  let newTable := tbl.map (prodApplyUpdate p)
  let returning := (tbl.filter (prodRowMatches p)).map (fun _ => p.Version + 1)
  match returning with
  | [] => ⟨newTable, p, DbResult.editConflict⟩
  | v :: _ => ⟨newTable, { p with Version := v }, DbResult.ok⟩

/-! ## ProductModel.Insert, error wrapping and CreateProductHandler
mapping (src/products/internal/data/products.go lines 37-67,
src/products/internal/handlers/products.go lines 84-93,
src/unnamed/part_002) -/

/-- Go error values reachable from product insertion: the sentinel
`ErrInvalidCategoryId`, a `fmt.Errorf("...: %w", ...)` wrapper, and any
other database error carrying its message. -/
inductive GoError where
  | errInvalidCategoryId
  | wrapped (msg : String) (inner : GoError)
  | dbError (msg : String)
deriving DecidableEq, Repr

/-- `err.Error()`: a wrapped error renders as `"<msg>: <inner>"`. -/
def GoError.message : GoError → String
  | GoError.errInvalidCategoryId => "invalid category_id"
  | GoError.wrapped msg inner => msg ++ ": " ++ inner.message
  | GoError.dbError msg => msg

/-- `errors.Is`: equality at each level of the `%w` unwrap chain. -/
def errorsIs : GoError → GoError → Bool
  | GoError.wrapped msg inner, target =>
    (GoError.wrapped msg inner == target) || errorsIs inner target
  | e, target => e == target

/-- `pq.Error` (only the code and message are consulted). -/
structure PqError where
  code : String
  msg : String
deriving DecidableEq, Repr

/-- `data.ErrForeignKeyViolation`. -/
def ErrForeignKeyViolation : String := "23503"

/-- Response of the database to the INSERT: either the
`RETURNING id, created_at, version` row or an error. -/
inductive InsertDbOutcome where
  | row (id : Int) (createdAt : Int) (version : Int)
  | failure (e : PqError)
deriving DecidableEq, Repr

/-- `ProductModel.Insert`: on success the returned columns are scanned
into the record; a pq error with code 23503 is wrapped as
`fmt.Errorf("category_id %d does not exist: %w", ..., ErrInvalidCategoryId)`;
any other error is passed through. -/
def ProductModel.Insert (p : Product) (db : InsertDbOutcome) :
    Except GoError Product :=
  match db with
  | InsertDbOutcome.row id createdAt version =>
    Except.ok { p with ID := id, CreatedAt := createdAt, Version := version }
  | InsertDbOutcome.failure e =>
    if e.code = ErrForeignKeyViolation then
      Except.error (GoError.wrapped
        ("category_id " ++ toString p.CategoryID ++ " does not exist")
        GoError.errInvalidCategoryId)
    else
      Except.error (GoError.dbError e.msg)

/-- The error branch of `CreateProductHandler` (lines 84-93):
`errors.Is(err, data.ErrInvalidCategoryId)` selects
`badRequestResponse` (status 400, body message `err.Error()`), anything
else `serverErrorResponse` (status 500, generic message). -/
def createProductErrorResponse (err : GoError) : Int × String :=
  if errorsIs err GoError.errInvalidCategoryId then (400, err.message)
  else (500, "the server encountered a problem and could not process your request")

/-! ## Helper lemmas -/

theorem mapGet_mapSet_self (m : List (String × String)) (k v : String) :
    mapGet (mapSet m k v) k = some v := by
  induction m with
  | nil => simp [mapGet, mapSet]
  | cons hd tl ih =>
    by_cases h : k = hd.1
    · simp [mapGet, mapSet, h]
    · simp [mapGet, mapSet, h, ih]

theorem mapGet_mapSet_ne (m : List (String × String)) (k k' v : String)
    (h : k' ≠ k) : mapGet (mapSet m k v) k' = mapGet m k' := by
  induction m with
  | nil => simp [mapGet, mapSet, h]
  | cons hd tl ih =>
    by_cases hk : k = hd.1
    · subst hk
      simp [mapGet, mapSet, h]
    · by_cases hk' : k' = hd.1
      · simp [mapGet, mapSet, hk, hk']
      · simp [mapGet, mapSet, hk, hk', ih]

/-! ## C2: calculateMetadata -/

/-- C2.  For every totalRecords T ≥ 0, page p and page size S ≥ 1,
`calculateMetadata` returns the all-zero Metadata value iff T = 0, and
otherwise the record with current_page = p, page_size = S, first_page =
1, last_page = (T+S-1)/S in integer division — which equals ⌈T/S⌉ — and
total_records = T. -/
theorem calculateMetadata_pagination (totalRecords page pageSize : Int)
    (hT : 0 ≤ totalRecords) (hS : 1 ≤ pageSize) :
    (calculateMetadata totalRecords page pageSize = Metadata.empty ↔ totalRecords = 0) ∧
    (totalRecords ≠ 0 →
      calculateMetadata totalRecords page pageSize =
        { currentPage := page
          pageSize := pageSize
          firstPage := 1
          lastPage := (totalRecords + pageSize - 1).tdiv pageSize
          totalRecords := totalRecords } ∧
      (totalRecords + pageSize - 1).tdiv pageSize =
        ⌈(totalRecords : ℚ) / (pageSize : ℚ)⌉) := by
  constructor
  · constructor
    · intro h
      by_contra hne
      have h1 := congrArg Metadata.firstPage h
      simp [calculateMetadata, hne, Metadata.empty] at h1
    · intro h
      simp [calculateMetadata, h]
  · intro hne
    refine ⟨by simp [calculateMetadata, hne], ?_⟩
    have hS0 : (0 : ℤ) < pageSize := by linarith
    have hnn : 0 ≤ totalRecords + pageSize - 1 := by linarith
    rw [Int.tdiv_eq_ediv hnn (le_of_lt hS0)]
    have h1 : (totalRecords + pageSize - 1) / pageSize * pageSize
        ≤ totalRecords + pageSize - 1 :=
      Int.ediv_mul_le _ (ne_of_gt hS0)
    have h2 : totalRecords + pageSize - 1
        < ((totalRecords + pageSize - 1) / pageSize + 1) * pageSize :=
      Int.lt_ediv_add_one_mul_self _ hS0
    have hSQ : (0 : ℚ) < (pageSize : ℚ) := by exact_mod_cast hS0
    symm
    rw [Int.ceil_eq_iff]
    set L : ℤ := (totalRecords + pageSize - 1) / pageSize with hLdef
    have hTL : totalRecords ≤ L * pageSize := by
      have hexp : (L + 1) * pageSize = L * pageSize + pageSize := by ring
      omega
    have hLT : (L - 1) * pageSize < totalRecords := by
      have hexp : (L - 1) * pageSize = L * pageSize - pageSize := by ring
      omega
    constructor
    · rw [lt_div_iff₀ hSQ]
      exact_mod_cast hLT
    · rw [div_le_iff₀ hSQ]
      exact_mod_cast hTL

/-- Witness for C2 at T = 12, p = 2, S = 5: the metadata record and the
ceiling value 3. -/
theorem calculateMetadata_pagination_witness :
    calculateMetadata 12 2 5 =
      { currentPage := 2, pageSize := 5, firstPage := 1,
        lastPage := (12 + 5 - 1 : Int).tdiv 5, totalRecords := 12 } ∧
    ((12 + 5 - 1 : Int).tdiv 5 = ⌈(12 : ℚ) / (5 : ℚ)⌉) :=
  (calculateMetadata_pagination 12 2 5 (by norm_num) (by norm_num)).2 (by norm_num)

/-! ## C3: sortColumns -/

/-- C3.  For every Filters value whose Sorts list contains only permitted
keys, `sortColumns` equals the spec-side clause: each key mapped through
the fixed table in request order joined with `", "`, with `"id ASC"`
appended exactly when neither `id` nor `-id` occurs among the keys. -/
theorem sortColumns_spec (f : Filters)
    (hperm : ∀ k ∈ f.Sorts, k ∈ permittedSortKeys) :
    f.sortColumns = specSortClause f.Sorts := by
  have hmap : f.Sorts.map sortFieldMapping = f.Sorts.map specSortTable := by
    apply List.map_congr_left
    intro k hk
    have h := hperm k hk
    simp only [permittedSortKeys, List.mem_cons, List.mem_singleton,
      List.not_mem_nil, or_false] at h
    rcases h with h | h | h | h | h | h <;> subst h <;> rfl
  by_cases h : "id" ∈ f.Sorts ∨ "-id" ∈ f.Sorts
  · have hb : (f.Sorts.any fun key => key == "id" || key == "-id") = true := by
      rcases h with h | h
      · exact List.any_eq_true.mpr ⟨"id", h, by simp⟩
      · exact List.any_eq_true.mpr ⟨"-id", h, by simp⟩
    simp [Filters.sortColumns, specSortClause, hb, h, hmap]
  · have hb : (f.Sorts.any fun key => key == "id" || key == "-id") = false := by
      rw [List.any_eq_false]
      intro x hx
      simp only [Bool.or_eq_true, beq_iff_eq, not_or]
      push_neg at h
      constructor
      · intro hxeq; exact h.1 (hxeq ▸ hx)
      · intro hxeq; exact h.2 (hxeq ▸ hx)
    simp [Filters.sortColumns, specSortClause, hb, h, hmap, sortFieldMapping]

/-- Witness for C3: the request order `[-name, created_at]` (permitted,
no id key) resolves with the tie-breaker appended. -/
theorem sortColumns_spec_witness :
    Filters.sortColumns ⟨[], "", none, none, ["-name", "created_at"], 1, 20⟩ =
      specSortClause ["-name", "created_at"] :=
  sortColumns_spec ⟨[], "", none, none, ["-name", "created_at"], 1, 20⟩ (by decide)

/-! ## C7: writeJSON -/

/-- C7.  When serialization of the envelope fails, `writeJSON` logs the
error and writes a bare 500 with no headers and an empty body; on the
success path it writes the given status, the supplied headers plus
`Content-Type: application/json`, and the serialized body.  (The
embedding is a total function: no panic is possible.) -/
theorem writeJSON_behavior :
    (∀ (status : Int) (headers : List (String × String)),
      writeJSON none status headers = (⟨some 500, [], ""⟩, true)) ∧
    (∀ (status : Int) (headers : List (String × String)) (js : String),
      writeJSON (some js) status headers =
        (⟨some status, mapSet headers "Content-Type" "application/json",
          js ++ "\n"⟩, false)) :=
  ⟨fun _ _ => rfl, fun _ _ _ => rfl⟩

/-! ## C6: readInt on a non-numeric page parameter -/

/-- C6 (failing input).  On `GET /v1/api/categories?page=as` the handler
does respond 400 with an error recorded under `"page"`, but `readInt`
(src/products/internal/handlers/helpers.go lines 147-171) records the
message `"must be an integer value"` without appending the raw token,
while the spec and the handler test (src/unnamed/part_001 lines 798-810)
require `"must be an integer value: as"`. -/
theorem readInt_message_at_failing_input :
    ListCategoryHandler (fun k => if k = "page" then "as" else "") =
      ListOutcome.badRequest [("page", "must be an integer value")] ∧
    (readInt (fun k => if k = "page" then "as" else "") "page" 1 []).2 =
      [("page", "must be an integer value")] ∧
    "must be an integer value" ≠ "must be an integer value: as" := by
  refine ⟨by decide, by decide, by decide⟩

/-! ## C9: absent list parameters substitute defaults -/

/-- C9.  When the page, page_size and sort query parameters are absent or
empty (and the remaining parameters are well-formed: here absent, with
name within its length bound), `ListCategoryHandler` does not reject the
request: it proceeds with page = 1, page_size = 20 and an empty sort
list, which resolves to ordering by ascending id alone. -/
theorem list_defaults_substituted (qs : String → String)
    (hdf : qs "date_from" = "") (hdt : qs "date_to" = "") (hid : qs "id" = "")
    (hname : (qs "name").length ≤ 100)
    (hs : qs "sort" = "") (hp : qs "page" = "") (hps : qs "page_size" = "") :
    ListCategoryHandler qs =
      ListOutcome.ok ⟨[], qs "name", none, none, [], 1, 20⟩ ∧
    Filters.sortColumns ⟨[], qs "name", none, none, [], 1, 20⟩ = "id ASC" := by
  have hparse : listCategoryParse qs =
      (⟨[], qs "name", none, none, [], 1, 20⟩, []) := by
    simp [listCategoryParse, readTime, readInt64Slice, readCSV, readInt,
      hdf, hdt, hid, hs, hp, hps]
  have h100 : ¬ (100 < (qs "name").length) := Nat.not_lt.mpr hname
  have hval : validateFilters ⟨[], qs "name", none, none, [], 1, 20⟩ = [] := by
    by_cases hn : qs "name" = ""
    · simp [validateFilters, validateFiltersName, validateFiltersSorts,
        validateFiltersPage, validateFiltersPageSize, hn]
    · simp [validateFilters, validateFiltersName, validateFiltersSorts,
        validateFiltersPage, validateFiltersPageSize, hn, h100]
  refine ⟨?_, rfl⟩
  simp [ListCategoryHandler, hparse, hval]

/-- Witness for C9: the canonical bare `GET /v1/api/categories`. -/
theorem list_defaults_substituted_witness :
    ListCategoryHandler (fun _ => "") =
      ListOutcome.ok ⟨[], "", none, none, [], 1, 20⟩ ∧
    Filters.sortColumns ⟨[], "", none, none, [], 1, 20⟩ = "id ASC" :=
  list_defaults_substituted (fun _ => "") rfl rfl rfl (by decide) rfl rfl rfl

/-! ## C10: at most 4 sort keys -/

/-- C10.  A sort list with more than 4 keys fails struct validation of
Filters with the `max` rule even when every key is permitted, so a parse
clean request with such a list receives the 422
`failedValidationResponse`; in particular no request can carry all six
permitted sort keys at once. -/
theorem sorts_limit_four (f : Filters)
    (_hperm : ∀ k ∈ f.Sorts, k ∈ permittedSortKeys)
    (hlen : 4 < f.Sorts.length) :
    validateFilters f ≠ [] ∧
    FieldError.mk "Sorts" "max" "4" ∈ validateFilters f ∧
    (∀ qs : String → String,
      (listCategoryParse qs).2 = [] → (listCategoryParse qs).1 = f →
      ListCategoryHandler qs = ListOutcome.unprocessable (validateFilters f)) := by
  have hne : f.Sorts ≠ [] := by
    intro h
    rw [h] at hlen
    simp at hlen
  have hsorts : validateFiltersSorts f.Sorts = [⟨"Sorts", "max", "4"⟩] := by
    simp [validateFiltersSorts, hne, hlen]
  have hmem : FieldError.mk "Sorts" "max" "4" ∈ validateFilters f := by
    simp [validateFilters, hsorts]
  have hv : validateFilters f ≠ [] := by
    intro h
    rw [h] at hmem
    simp at hmem
  refine ⟨hv, hmem, ?_⟩
  intro qs h2 h1
  simp [ListCategoryHandler, h2, h1, hv]

/-- Witness for C10: five permitted sort keys in one request reach the
422 outcome. -/
theorem sorts_limit_four_witness :
    ListCategoryHandler
        (fun k => if k = "sort" then "id,created_at,name,-id,-name" else "") =
      ListOutcome.unprocessable (validateFilters
        ⟨[], "", none, none, ["id", "created_at", "name", "-id", "-name"], 1, 20⟩) :=
  (sorts_limit_four
    ⟨[], "", none, none, ["id", "created_at", "name", "-id", "-name"], 1, 20⟩
    (by decide) (by decide)).2.2 _ (by decide) (by decide)

/-! ## C4: validation collects all failing rules -/

theorem foldl_mapSet_not_mem (ve : List FieldError)
    (m : List (String × String)) (k : String)
    (h : ∀ fe ∈ ve, getJsonName fe.field fieldJSONMap ≠ k) :
    mapGet
      (ve.foldl
        (fun m fe =>
          mapSet m (getJsonName fe.field fieldJSONMap) (getFieldErrorMessage fe))
        m) k = mapGet m k := by
  induction ve generalizing m with
  | nil => rfl
  | cons hd tl ih =>
    simp only [List.foldl_cons]
    rw [ih _ (fun fe hfe => h fe (List.mem_cons_of_mem _ hfe))]
    exact mapGet_mapSet_ne _ _ _ _ (h hd (List.mem_cons_self _ _)).symm

theorem foldl_mapSet_lookup (ve : List FieldError) (m : List (String × String))
    (hnd : (ve.map fun fe => getJsonName fe.field fieldJSONMap).Nodup) :
    ∀ fe ∈ ve,
      mapGet
        (ve.foldl
          (fun m fe =>
            mapSet m (getJsonName fe.field fieldJSONMap) (getFieldErrorMessage fe))
          m) (getJsonName fe.field fieldJSONMap) = some (getFieldErrorMessage fe) := by
  induction ve generalizing m with
  | nil => intro fe hfe; cases hfe
  | cons hd tl ih =>
    intro fe hfe
    simp only [List.map_cons, List.nodup_cons] at hnd
    simp only [List.foldl_cons]
    rcases List.mem_cons.mp hfe with rfl | hmem
    · have hnotin : ∀ g ∈ tl,
          getJsonName g.field fieldJSONMap ≠ getJsonName fe.field fieldJSONMap := by
        intro g hg heq
        exact hnd.1 (heq ▸ List.mem_map_of_mem _ hg)
      rw [foldl_mapSet_not_mem tl _ _ hnotin, mapGet_mapSet_self]
    · exact ih _ hnd.2 fe hmem

theorem validateNameField_field (s : String) (fe : FieldError)
    (h : validateNameField s = some fe) : fe.field = "Name" := by
  unfold validateNameField at h
  split_ifs at h <;> rw [← Option.some.inj h]

theorem validateCategoryIDField_field (i : Int) (fe : FieldError)
    (h : validateCategoryIDField i = some fe) : fe.field = "CategoryID" := by
  unfold validateCategoryIDField at h
  split_ifs at h
  rw [← Option.some.inj h]

theorem validatePriceField_field (q : ℚ) (fe : FieldError)
    (h : validatePriceField q = some fe) : fe.field = "Price" := by
  unfold validatePriceField at h
  split_ifs at h
  rw [← Option.some.inj h]

theorem validateQuantityField_field (q : Int) (fe : FieldError)
    (h : validateQuantityField q = some fe) : fe.field = "Quantity" := by
  unfold validateQuantityField at h
  split_ifs at h
  rw [← Option.some.inj h]

/-- The wire names produced by `validateProductDTO` form a sublist of the
four distinct field keys, hence are distinct. -/
theorem validateProductDTO_keys (p : ProductDTO) :
    List.Sublist
      ((validateProductDTO p).map fun fe => getJsonName fe.field fieldJSONMap)
      ["name", "category_id", "price", "quantity"] := by
  unfold validateProductDTO
  rw [List.map_append, List.map_append, List.map_append]
  have h1 : List.Sublist ((validateNameField p.Name).toList.map
      fun fe => getJsonName fe.field fieldJSONMap) ["name"] := by
    cases h : validateNameField p.Name with
    | none => simp
    | some fe =>
      have hf := validateNameField_field _ _ h
      simp [hf, getJsonName, fieldJSONMap, mapGet]
  have h2 : List.Sublist ((validateCategoryIDField p.CategoryID).toList.map
      fun fe => getJsonName fe.field fieldJSONMap) ["category_id"] := by
    cases h : validateCategoryIDField p.CategoryID with
    | none => simp
    | some fe =>
      have hf := validateCategoryIDField_field _ _ h
      simp [hf, getJsonName, fieldJSONMap, mapGet]
  have h3 : List.Sublist ((validatePriceField p.Price).toList.map
      fun fe => getJsonName fe.field fieldJSONMap) ["price"] := by
    cases h : validatePriceField p.Price with
    | none => simp
    | some fe =>
      have hf := validatePriceField_field _ _ h
      simp [hf, getJsonName, fieldJSONMap, mapGet]
  have h4 : List.Sublist ((validateQuantityField p.Quantity).toList.map
      fun fe => getJsonName fe.field fieldJSONMap) ["quantity"] := by
    cases h : validateQuantityField p.Quantity with
    | none => simp
    | some fe =>
      have hf := validateQuantityField_field _ _ h
      simp [hf, getJsonName, fieldJSONMap, mapGet]
  exact ((h1.append h2).append h3).append h4

/-- C4.  When a product payload fails more than one declarative rule
(across one or several fields), the 422 error object built by
`getValidationMessages` contains the human-readable message of every
failing rule, each keyed by the external wire name of the offending
field — not just the first failure. -/
theorem validation_collects_all_failures (p : ProductDTO)
    (_hmulti : 1 < (validateProductDTO p).length) :
    ∀ fe ∈ validateProductDTO p,
      mapGet (getValidationMessages (validateProductDTO p))
        (getJsonName fe.field fieldJSONMap) = some (getFieldErrorMessage fe) := by
  have hkeys :
      ((validateProductDTO p).map fun fe => getJsonName fe.field fieldJSONMap).Nodup :=
    List.Nodup.sublist (validateProductDTO_keys p) (by decide)
  intro fe hfe
  exact foldl_mapSet_lookup _ _ hkeys fe hfe

/-! ## Shared lemmas on the optimistic-concurrency UPDATE -/

theorem catRowMatches_iff (c : Category) (r : CatRow) :
    catRowMatches c r = true ↔ r.id = c.ID ∧ r.version = c.Version := by
  simp [catRowMatches]

theorem catApplyUpdate_not_match (c : Category) (r : CatRow)
    (h : ¬(r.id = c.ID ∧ r.version = c.Version)) : catApplyUpdate c r = r := by
  have hm : catRowMatches c r = false := by
    rw [Bool.eq_false_iff]
    intro hb
    exact h ((catRowMatches_iff c r).mp hb)
  simp [catApplyUpdate, hm]

theorem catUpdate_table (tbl : List CatRow) (c : Category) :
    (CategoryModel.Update tbl c).table = tbl.map (catApplyUpdate c) := by
  cases hfe : tbl.filter (catRowMatches c) with
  | nil => simp [CategoryModel.Update, hfe]
  | cons r0 rest => simp [CategoryModel.Update, hfe]

theorem catUpdate_conflict (tbl : List CatRow) (c : Category)
    (h : ∀ r ∈ tbl, ¬(r.id = c.ID ∧ r.version = c.Version)) :
    (CategoryModel.Update tbl c).res = DbResult.editConflict ∧
    (CategoryModel.Update tbl c).record = c := by
  have hfil : tbl.filter (catRowMatches c) = [] := by
    rw [List.filter_eq_nil_iff]
    intro r hr
    rw [Bool.not_eq_true]
    rw [Bool.eq_false_iff]
    intro hb
    exact h r hr ((catRowMatches_iff c r).mp hb)
  simp [CategoryModel.Update, hfil]

theorem catUpdate_ok (tbl : List CatRow) (c : Category) (r : CatRow)
    (hr : r ∈ tbl) (h1 : r.id = c.ID) (h2 : r.version = c.Version) :
    (CategoryModel.Update tbl c).res = DbResult.ok ∧
    (CategoryModel.Update tbl c).record = { c with Version := c.Version + 1 } := by
  have hfil : r ∈ tbl.filter (catRowMatches c) :=
    List.mem_filter.mpr ⟨hr, (catRowMatches_iff c r).mpr ⟨h1, h2⟩⟩
  cases hfe : tbl.filter (catRowMatches c) with
  | nil => exact absurd (hfe ▸ hfil) (List.not_mem_nil r)
  | cons r0 rest =>
    have hr0 : catRowMatches c r0 = true :=
      (List.mem_filter.mp (hfe ▸ List.mem_cons_self r0 rest)).2
    have hv0 : r0.version = c.Version := ((catRowMatches_iff c r0).mp hr0).2
    simp [CategoryModel.Update, hfe, hv0]

theorem catApplyUpdate_no_rematch (c c' : Category)
    (hid : c'.ID = c.ID) (hver : c'.Version = c.Version) (r : CatRow) :
    ¬((catApplyUpdate c r).id = c'.ID ∧ (catApplyUpdate c r).version = c'.Version) := by
  by_cases hm : catRowMatches c r = true
  · have hv : r.version = c.Version := ((catRowMatches_iff c r).mp hm).2
    simp only [catApplyUpdate, hm, if_true]
    intro h
    have := h.2
    simp only [hver] at this
    omega
  · rw [catApplyUpdate, if_neg hm]
    intro h
    exact hm ((catRowMatches_iff c r).mpr ⟨hid ▸ h.1, hver ▸ h.2⟩)

theorem prodRowMatches_iff (p : Product) (r : ProdRow) :
    prodRowMatches p r = true ↔ r.id = p.ID ∧ r.version = p.Version := by
  simp [prodRowMatches]

theorem prodApplyUpdate_not_match (p : Product) (r : ProdRow)
    (h : ¬(r.id = p.ID ∧ r.version = p.Version)) : prodApplyUpdate p r = r := by
  have hm : prodRowMatches p r = false := by
    rw [Bool.eq_false_iff]
    intro hb
    exact h ((prodRowMatches_iff p r).mp hb)
  simp [prodApplyUpdate, hm]

theorem prodUpdate_table (tbl : List ProdRow) (p : Product) :
    (ProductModel.Update tbl p).table = tbl.map (prodApplyUpdate p) := by
  cases hfe : tbl.filter (prodRowMatches p) with
  | nil => simp [ProductModel.Update, hfe]
  | cons r0 rest => simp [ProductModel.Update, hfe]

theorem prodUpdate_conflict (tbl : List ProdRow) (p : Product)
    (h : ∀ r ∈ tbl, ¬(r.id = p.ID ∧ r.version = p.Version)) :
    (ProductModel.Update tbl p).res = DbResult.editConflict ∧
    (ProductModel.Update tbl p).record = p := by
  have hfil : tbl.filter (prodRowMatches p) = [] := by
    rw [List.filter_eq_nil_iff]
    intro r hr
    rw [Bool.not_eq_true]
    rw [Bool.eq_false_iff]
    intro hb
    exact h r hr ((prodRowMatches_iff p r).mp hb)
  simp [ProductModel.Update, hfil]

theorem prodUpdate_ok (tbl : List ProdRow) (p : Product) (r : ProdRow)
    (hr : r ∈ tbl) (h1 : r.id = p.ID) (h2 : r.version = p.Version) :
    (ProductModel.Update tbl p).res = DbResult.ok ∧
    (ProductModel.Update tbl p).record = { p with Version := p.Version + 1 } := by
  have hfil : r ∈ tbl.filter (prodRowMatches p) :=
    List.mem_filter.mpr ⟨hr, (prodRowMatches_iff p r).mpr ⟨h1, h2⟩⟩
  cases hfe : tbl.filter (prodRowMatches p) with
  | nil => exact absurd (hfe ▸ hfil) (List.not_mem_nil r)
  | cons r0 rest => simp [ProductModel.Update, hfe]

theorem prodApplyUpdate_no_rematch (p p' : Product)
    (hid : p'.ID = p.ID) (hver : p'.Version = p.Version) (r : ProdRow) :
    ¬((prodApplyUpdate p r).id = p'.ID ∧ (prodApplyUpdate p r).version = p'.Version) := by
  by_cases hm : prodRowMatches p r = true
  · simp only [prodApplyUpdate, hm, if_true]
    intro h
    have := h.2
    simp only [hver] at this
    omega
  · rw [prodApplyUpdate, if_neg hm]
    intro h
    exact hm ((prodRowMatches_iff p r).mpr ⟨hid ▸ h.1, hver ▸ h.2⟩)

/-! ## C1: Update applies the version check -/

/-- C1.  For a category or product Update: the statement rewrites exactly
the rows whose stored (id, version) equals the pair carried by the
record, bumping the stored version to version + 1 and scanning the
incremented version back into the record; with no matching row it
returns `ErrEditConflict` and leaves the record fully unchanged. -/
theorem update_version_check
    (tblC : List CatRow) (c : Category) (tblP : List ProdRow) (p : Product) :
    ((CategoryModel.Update tblC c).table = tblC.map (catApplyUpdate c) ∧
     (∀ r ∈ tblC, ¬(r.id = c.ID ∧ r.version = c.Version) → catApplyUpdate c r = r) ∧
     (∀ r ∈ tblC, r.id = c.ID → r.version = c.Version →
       catApplyUpdate c r =
         CatRow.mk r.id c.Name c.Description (c.Version + 1) r.createdAt) ∧
     ((∀ r ∈ tblC, ¬(r.id = c.ID ∧ r.version = c.Version)) →
       (CategoryModel.Update tblC c).res = DbResult.editConflict ∧
       (CategoryModel.Update tblC c).record = c) ∧
     (∀ r ∈ tblC, r.id = c.ID → r.version = c.Version →
       (CategoryModel.Update tblC c).res = DbResult.ok ∧
       (CategoryModel.Update tblC c).record = { c with Version := c.Version + 1 })) ∧
    ((ProductModel.Update tblP p).table = tblP.map (prodApplyUpdate p) ∧
     (∀ r ∈ tblP, ¬(r.id = p.ID ∧ r.version = p.Version) → prodApplyUpdate p r = r) ∧
     (∀ r ∈ tblP, r.id = p.ID → r.version = p.Version →
       prodApplyUpdate p r =
         ProdRow.mk r.id p.Name p.CategoryID p.Description p.Price p.Quantity
           (p.Version + 1) r.createdAt) ∧
     ((∀ r ∈ tblP, ¬(r.id = p.ID ∧ r.version = p.Version)) →
       (ProductModel.Update tblP p).res = DbResult.editConflict ∧
       (ProductModel.Update tblP p).record = p) ∧
     (∀ r ∈ tblP, r.id = p.ID → r.version = p.Version →
       (ProductModel.Update tblP p).res = DbResult.ok ∧
       (ProductModel.Update tblP p).record = { p with Version := p.Version + 1 })) := by
  refine ⟨⟨catUpdate_table tblC c, ?_, ?_, catUpdate_conflict tblC c, ?_⟩,
    ⟨prodUpdate_table tblP p, ?_, ?_, prodUpdate_conflict tblP p, ?_⟩⟩
  · intro r _ h
    exact catApplyUpdate_not_match c r h
  · intro r _ h1 h2
    have hm : catRowMatches c r = true := (catRowMatches_iff c r).mpr ⟨h1, h2⟩
    simp [catApplyUpdate, hm, h2]
  · intro r hr h1 h2
    exact catUpdate_ok tblC c r hr h1 h2
  · intro r _ h
    exact prodApplyUpdate_not_match p r h
  · intro r _ h1 h2
    have hm : prodRowMatches p r = true := (prodRowMatches_iff p r).mpr ⟨h1, h2⟩
    simp [prodApplyUpdate, hm]
  · intro r hr h1 h2
    exact prodUpdate_ok tblP p r hr h1 h2

/-- Witness for C1: a one-row table with matching version updates to
version 2; a stale version-1 record against a version-2 row conflicts. -/
theorem update_version_check_witness :
    ((CategoryModel.Update [CatRow.mk 1 "a" "d" 1 0]
        (Category.mk 1 "b" "e" 1 0)).res = DbResult.ok ∧
     (CategoryModel.Update [CatRow.mk 1 "a" "d" 1 0]
        (Category.mk 1 "b" "e" 1 0)).record =
       { Category.mk 1 "b" "e" 1 0 with Version := 1 + 1 }) ∧
    ((CategoryModel.Update [CatRow.mk 1 "a" "d" 2 0]
        (Category.mk 1 "b" "e" 1 0)).res = DbResult.editConflict ∧
     (CategoryModel.Update [CatRow.mk 1 "a" "d" 2 0]
        (Category.mk 1 "b" "e" 1 0)).record = Category.mk 1 "b" "e" 1 0) :=
  ⟨(update_version_check [CatRow.mk 1 "a" "d" 1 0] (Category.mk 1 "b" "e" 1 0)
      [] (Product.mk 0 "" 0 "" 0 0 0 0)).1.2.2.2.2
      (CatRow.mk 1 "a" "d" 1 0) (by decide) (by decide) (by decide),
   (update_version_check [CatRow.mk 1 "a" "d" 2 0] (Category.mk 1 "b" "e" 1 0)
      [] (Product.mk 0 "" 0 "" 0 0 0 0)).1.2.2.2.1 (by decide)⟩

/-! ## C8: two racing updates on the same (id, version) -/

/-- C8.  The update is a single compare-and-swap statement on
(id, version); in either serialization of two Update calls carrying the
same (id, version) pair against a table holding that pair, the first
call succeeds and bumps the stored version to v+1 and the second
receives `ErrEditConflict` with its record untouched — for the category
and the product repository alike. -/
theorem concurrent_update_exactly_one
    (tblC : List CatRow) (c1 c2 : Category)
    (hcid : c2.ID = c1.ID) (hcver : c2.Version = c1.Version)
    (hcex : ∃ r ∈ tblC, r.id = c1.ID ∧ r.version = c1.Version)
    (tblP : List ProdRow) (p1 p2 : Product)
    (hpid : p2.ID = p1.ID) (hpver : p2.Version = p1.Version)
    (hpex : ∃ r ∈ tblP, r.id = p1.ID ∧ r.version = p1.Version) :
    ((CategoryModel.Update tblC c1).res = DbResult.ok ∧
     (CategoryModel.Update tblC c1).record.Version = c1.Version + 1 ∧
     (CategoryModel.Update (CategoryModel.Update tblC c1).table c2).res =
       DbResult.editConflict ∧
     (CategoryModel.Update (CategoryModel.Update tblC c1).table c2).record = c2) ∧
    ((CategoryModel.Update tblC c2).res = DbResult.ok ∧
     (CategoryModel.Update tblC c2).record.Version = c2.Version + 1 ∧
     (CategoryModel.Update (CategoryModel.Update tblC c2).table c1).res =
       DbResult.editConflict ∧
     (CategoryModel.Update (CategoryModel.Update tblC c2).table c1).record = c1) ∧
    ((ProductModel.Update tblP p1).res = DbResult.ok ∧
     (ProductModel.Update tblP p1).record.Version = p1.Version + 1 ∧
     (ProductModel.Update (ProductModel.Update tblP p1).table p2).res =
       DbResult.editConflict ∧
     (ProductModel.Update (ProductModel.Update tblP p1).table p2).record = p2) ∧
    ((ProductModel.Update tblP p2).res = DbResult.ok ∧
     (ProductModel.Update tblP p2).record.Version = p2.Version + 1 ∧
     (ProductModel.Update (ProductModel.Update tblP p2).table p1).res =
       DbResult.editConflict ∧
     (ProductModel.Update (ProductModel.Update tblP p2).table p1).record = p1) := by
  obtain ⟨rc, hrc, hrc1, hrc2⟩ := hcex
  obtain ⟨rp, hrp, hrp1, hrp2⟩ := hpex
  have hcat : ∀ (a b : Category), b.ID = a.ID → b.Version = a.Version →
      (∃ r ∈ tblC, r.id = a.ID ∧ r.version = a.Version) →
      (CategoryModel.Update tblC a).res = DbResult.ok ∧
      (CategoryModel.Update tblC a).record.Version = a.Version + 1 ∧
      (CategoryModel.Update (CategoryModel.Update tblC a).table b).res =
        DbResult.editConflict ∧
      (CategoryModel.Update (CategoryModel.Update tblC a).table b).record = b := by
    intro a b hbid hbver ⟨r, hr, h1, h2⟩
    have hok := catUpdate_ok tblC a r hr h1 h2
    have hconf : ∀ r' ∈ (CategoryModel.Update tblC a).table,
        ¬(r'.id = b.ID ∧ r'.version = b.Version) := by
      rw [catUpdate_table]
      intro r' hr'
      obtain ⟨r0, _, rfl⟩ := List.mem_map.mp hr'
      exact catApplyUpdate_no_rematch a b hbid hbver r0
    have hc := catUpdate_conflict _ b hconf
    exact ⟨hok.1, by rw [hok.2], hc.1, hc.2⟩
  have hprod : ∀ (a b : Product), b.ID = a.ID → b.Version = a.Version →
      (∃ r ∈ tblP, r.id = a.ID ∧ r.version = a.Version) →
      (ProductModel.Update tblP a).res = DbResult.ok ∧
      (ProductModel.Update tblP a).record.Version = a.Version + 1 ∧
      (ProductModel.Update (ProductModel.Update tblP a).table b).res =
        DbResult.editConflict ∧
      (ProductModel.Update (ProductModel.Update tblP a).table b).record = b := by
    intro a b hbid hbver ⟨r, hr, h1, h2⟩
    have hok := prodUpdate_ok tblP a r hr h1 h2
    have hconf : ∀ r' ∈ (ProductModel.Update tblP a).table,
        ¬(r'.id = b.ID ∧ r'.version = b.Version) := by
      rw [prodUpdate_table]
      intro r' hr'
      obtain ⟨r0, _, rfl⟩ := List.mem_map.mp hr'
      exact prodApplyUpdate_no_rematch a b hbid hbver r0
    have hc := prodUpdate_conflict _ b hconf
    exact ⟨hok.1, by rw [hok.2], hc.1, hc.2⟩
  refine ⟨hcat c1 c2 hcid hcver ⟨rc, hrc, hrc1, hrc2⟩, ?_,
    hprod p1 p2 hpid hpver ⟨rp, hrp, hrp1, hrp2⟩, ?_⟩
  · exact hcat c2 c1 (by rw [hcid]) (by rw [hcver])
      ⟨rc, hrc, by rw [hrc1, hcid], by rw [hrc2, hcver]⟩
  · exact hprod p2 p1 (by rw [hpid]) (by rw [hpver])
      ⟨rp, hrp, by rw [hrp1, hpid], by rw [hrp2, hpver]⟩

/-- Witness for C8: two stale copies of the version-3 row 7 race; the
first writer wins in both serializations. -/
theorem concurrent_update_exactly_one_witness :
    (CategoryModel.Update [CatRow.mk 7 "n" "d" 3 0]
       (Category.mk 7 "x" "dx" 3 0)).res = DbResult.ok ∧
    (CategoryModel.Update
       (CategoryModel.Update [CatRow.mk 7 "n" "d" 3 0]
         (Category.mk 7 "x" "dx" 3 0)).table
       (Category.mk 7 "y" "dy" 3 0)).res = DbResult.editConflict :=
  ⟨(concurrent_update_exactly_one [CatRow.mk 7 "n" "d" 3 0]
      (Category.mk 7 "x" "dx" 3 0) (Category.mk 7 "y" "dy" 3 0)
      (by decide) (by decide) ⟨CatRow.mk 7 "n" "d" 3 0, by decide, by decide, by decide⟩
      [ProdRow.mk 7 "n" 1 "d" 0 0 3 0]
      (Product.mk 7 "x" 1 "dx" 0 0 3 0) (Product.mk 7 "y" 1 "dy" 0 0 3 0)
      (by decide) (by decide)
      ⟨ProdRow.mk 7 "n" 1 "d" 0 0 3 0, by decide, by decide, by decide⟩).1.1,
   (concurrent_update_exactly_one [CatRow.mk 7 "n" "d" 3 0]
      (Category.mk 7 "x" "dx" 3 0) (Category.mk 7 "y" "dy" 3 0)
      (by decide) (by decide) ⟨CatRow.mk 7 "n" "d" 3 0, by decide, by decide, by decide⟩
      [ProdRow.mk 7 "n" 1 "d" 0 0 3 0]
      (Product.mk 7 "x" 1 "dx" 0 0 3 0) (Product.mk 7 "y" 1 "dy" 0 0 3 0)
      (by decide) (by decide)
      ⟨ProdRow.mk 7 "n" 1 "d" 0 0 3 0, by decide, by decide, by decide⟩).1.2.2.1⟩

/-- Witness for C4: empty name and zero category id fail two rules at
once and both messages are present under their wire names. -/
theorem validation_collects_all_failures_witness :
    mapGet (getValidationMessages (validateProductDTO ⟨"", 0, "", 0, 0⟩))
        (getJsonName "Name" fieldJSONMap)
      = some (getFieldErrorMessage ⟨"Name", "required", ""⟩) ∧
    mapGet (getValidationMessages (validateProductDTO ⟨"", 0, "", 0, 0⟩))
        (getJsonName "CategoryID" fieldJSONMap)
      = some (getFieldErrorMessage ⟨"CategoryID", "required", ""⟩) :=
  ⟨validation_collects_all_failures ⟨"", 0, "", 0, 0⟩ (by decide)
      ⟨"Name", "required", ""⟩ (by decide),
    validation_collects_all_failures ⟨"", 0, "", 0, 0⟩ (by decide)
      ⟨"CategoryID", "required", ""⟩ (by decide)⟩

/-! ## C5: foreign-key violation on product insert -/

/-- C5 (counterexample).  On a foreign-key violation (pq code 23503) the
handler does respond 400 and the case is distinguished from other
database errors, but the body message is the wrapped
`"category_id <id> does not exist: invalid category_id"` produced by
`ProductModel.Insert` and sent verbatim by `badRequestResponse` — not
the bare `"invalid category_id"` the claim states. -/
theorem fk_insert_body_counterexample :
    ProductModel.Insert (Product.mk 0 "Widget" 999 "" 0 0 0 0)
        (InsertDbOutcome.failure (PqError.mk "23503" "fk violation")) =
      Except.error (GoError.wrapped "category_id 999 does not exist"
        GoError.errInvalidCategoryId) ∧
    createProductErrorResponse (GoError.wrapped "category_id 999 does not exist"
        GoError.errInvalidCategoryId) =
      (400, "category_id 999 does not exist: invalid category_id") ∧
    "category_id 999 does not exist: invalid category_id" ≠ "invalid category_id" := by
  refine ⟨rfl, rfl, by decide⟩

/-- C5 (amended).  A foreign-key violation on product insert (pq code
23503) yields status 400 with the body message
`"category_id <id> does not exist: invalid category_id"` (the wrapped
sentinel rendered by `err.Error()`), distinguished from every other
database error, which yields the generic 500 response. -/
theorem fk_insert_maps_badRequest (p : Product) (code msg : String) (e : GoError)
    (h : ProductModel.Insert p (InsertDbOutcome.failure (PqError.mk code msg)) =
      Except.error e) :
    (code = "23503" →
      createProductErrorResponse e =
        (400,
          "category_id " ++ toString p.CategoryID ++
            " does not exist: invalid category_id")) ∧
    (code ≠ "23503" →
      createProductErrorResponse e =
        (500, "the server encountered a problem and could not process your request")) := by
  constructor
  · intro hc
    have he : e = GoError.wrapped
        ("category_id " ++ toString p.CategoryID ++ " does not exist")
        GoError.errInvalidCategoryId := by
      have hred : ProductModel.Insert p
          (InsertDbOutcome.failure (PqError.mk code msg)) =
          (if code = ErrForeignKeyViolation then
            Except.error (GoError.wrapped
              ("category_id " ++ toString p.CategoryID ++ " does not exist")
              GoError.errInvalidCategoryId)
          else Except.error (GoError.dbError msg)) := rfl
      rw [hred, if_pos (by simp [ErrForeignKeyViolation, hc])] at h
      exact (Except.error.inj h).symm
    subst he
    have hIs : errorsIs (GoError.wrapped
        ("category_id " ++ toString p.CategoryID ++ " does not exist")
        GoError.errInvalidCategoryId) GoError.errInvalidCategoryId = true := by
      simp [errorsIs]
    unfold createProductErrorResponse
    rw [if_pos hIs]
    refine congrArg (Prod.mk 400) ?_
    show (("category_id " ++ toString p.CategoryID ++ " does not exist") ++ ": ")
        ++ "invalid category_id" =
      ("category_id " ++ toString p.CategoryID) ++
        " does not exist: invalid category_id"
    rw [String.append_assoc, String.append_assoc, String.append_assoc,
      String.append_assoc]
    exact congrArg (fun s => "category_id " ++ (toString p.CategoryID ++ s)) rfl
  · intro hc
    have he : e = GoError.dbError msg := by
      have hred : ProductModel.Insert p
          (InsertDbOutcome.failure (PqError.mk code msg)) =
          (if code = ErrForeignKeyViolation then
            Except.error (GoError.wrapped
              ("category_id " ++ toString p.CategoryID ++ " does not exist")
              GoError.errInvalidCategoryId)
          else Except.error (GoError.dbError msg)) := rfl
      rw [hred, if_neg (by simpa [ErrForeignKeyViolation] using hc)] at h
      exact (Except.error.inj h).symm
    subst he
    unfold createProductErrorResponse
    rw [if_neg (by simp [errorsIs])]

/-- Witness for C5 (amended): category id 42 with a 23503 failure maps
to the wrapped 400 body; a different code maps to the generic 500. -/
theorem fk_insert_maps_badRequest_witness :
    createProductErrorResponse (GoError.wrapped "category_id 42 does not exist"
        GoError.errInvalidCategoryId) =
      (400, "category_id " ++ toString (42 : Int) ++
        " does not exist: invalid category_id") ∧
    createProductErrorResponse (GoError.dbError "boom") =
      (500, "the server encountered a problem and could not process your request") :=
  ⟨(fk_insert_maps_badRequest (Product.mk 0 "Widget" 42 "" 0 0 0 0) "23503" "fk"
      (GoError.wrapped "category_id 42 does not exist" GoError.errInvalidCategoryId)
      rfl).1 rfl,
   (fk_insert_maps_badRequest (Product.mk 0 "Widget" 42 "" 0 0 0 0) "40001" "boom"
      (GoError.dbError "boom") rfl).2 (by decide)⟩

end GoEcom
